import Mathlib

/-!
# Kernel package URL resolution for Amazon Linux

A shallow embedding of `pkg/driverbuilder/builder/amazonlinux2.go`
(`script`, `reposByTarget`, `fetchAmazonLinuxPackagesURLs`) and theorems about it.

Modelling conventions.

* Go strings are modelled by `String`; every operation works on the list of
  characters, which agrees with Go's byte-wise operations on valid UTF-8 text.
* Everything the resolution reads from outside (HTTP endpoints, decompression,
  the temporary file and the SQLite store) is an `Env` of oracles over an
  abstract world state `σ`, threaded explicitly, so that an endpoint may answer
  differently each time it is asked.
* Every effectful call site of the loop body appends an `Event` to a trace.
* A Go result `(x, err)` is modelled by `Except String _` (the message of the
  error) or, for `script`, by the pair of the returned string and the error.
-/

deriving instance DecidableEq for Except

set_option maxRecDepth 20000

namespace Driverkit

/-! ## Go string primitives -/

/-- Go `strings.TrimSuffix`: removes one trailing occurrence of the given suffix, if present. -/
def trimSuffix (s suffix : String) : String :=
  if suffix.data.isSuffixOf s.data then
    ⟨s.data.take (s.data.length - suffix.data.length)⟩
  else s

/-- Go `strings.TrimPrefix`: removes one leading occurrence of the given string, if present. -/
def trimPrefix (s pre : String) : String :=
  if pre.data.isPrefixOf s.data then ⟨s.data.drop pre.data.length⟩ else s

/-- Left-to-right replacement of non-overlapping occurrences of a non-empty `old`;
the counter is the number of characters of the current occurrence still to skip. -/
def replaceAllAux (old new : List Char) : List Char → Nat → List Char
  | [], _ => []
  | _ :: cs, skip + 1 => replaceAllAux old new cs skip
  | c :: cs, 0 =>
    if old.isPrefixOf (c :: cs) then new ++ replaceAllAux old new cs (old.length - 1)
    else c :: replaceAllAux old new cs 0

/-- Go `strings.ReplaceAll` for a non-empty `old` (the only use has `old = "$basearch"`). -/
def replaceAll (s old new : String) : String :=
  ⟨replaceAllAux old.data new.data s.data 0⟩

/-- Go `bufio.MaxScanTokenSize`. -/
def maxScanTokenSize : Nat := 64 * 1024

/-- The helper `dropCR` of `bufio.ScanLines`: drops one trailing carriage return. -/
def dropCR (l : List Char) : List Char :=
  if l.getLast? = some '\r' then l.dropLast else l

/-- The text of the first token of a `bufio.Scanner` (default `ScanLines` split, default
buffer) over a response body, as read by
`if scanner.Scan() { repo = scanner.Text() }` with `repo` initially `""`:
the bytes before the first newline without a trailing carriage return. `Scan` is false, and
the result `""`, on an empty body and on a first line that does not fit the token buffer. -/
def scanFirstLine (body : String) : String :=
  let line := body.data.takeWhile (fun c => c != '\n')
  if body.data = [] then ""
  else if (line.map Char.utf8Size).sum < maxScanTokenSize then ⟨dropCR line⟩
  else ""

/-! ## Data model -/

/-- The fields of `kernelrelease.KernelRelease` that the resolution reads. -/
structure KernelRelease where
  Fullversion : String
  FullExtraversion : String
  deriving DecidableEq, Repr

/-- A row of the `packages` table of a `primary.sqlite` index: the columns the query reads,
each holding text (the table declares them `TEXT`; a `NULL` in `location_href` would make
`rows.Scan` fail and end the process in `log.Fatal`, which is outside this model). -/
structure PackageRecord where
  name : String
  version : String
  release : String
  location_href : String
  deriving DecidableEq, Repr

/-- The part of `Config.Build` read by `script`. -/
structure Build where
  KernelRelease : String
  Architecture : String
  ModuleFilePath : String
  ProbeFilePath : String
  deriving DecidableEq, Repr

/-- The builder configuration. -/
structure Config where
  Build : Build
  deriving DecidableEq, Repr

/-- `TargetTypeAmazonLinux2`. -/
def TargetTypeAmazonLinux2 : String := "amazonlinux2"

/-- `TargetTypeAmazonLinux`. -/
def TargetTypeAmazonLinux : String := "amazonlinux"

/-- The map `reposByTarget`; a key that is absent yields the nil slice. -/
def reposByTarget (targetType : String) : List String :=
  if targetType = TargetTypeAmazonLinux2 then ["2.0", "latest"]
  else if targetType = TargetTypeAmazonLinux then
    ["latest/updates", "latest/main", "2017.03/updates", "2017.03/main",
     "2017.09/updates", "2017.09/main", "2018.03/updates", "2018.03/main"]
  else []

/-- The effectful call sites of one loop iteration, each carrying the URL it concerns. -/
inductive Event where
  /-- The call `http.Get(mirror)`. -/
  | mirrorGet (url : String)
  /-- The call `http.Get(repoDatabaseURL)`. -/
  | indexGet (url : String)
  /-- The call `unzipFunc(repoRes.Body)` on the index downloaded from the URL. -/
  | unzip (url : String)
  /-- The calls `db.Prepare(q)` and `stmt.Query()` on the index downloaded from the URL. -/
  | query (url : String)
  deriving DecidableEq, Repr

/-- The environment of a resolution, over a world state `σ`. -/
structure Env (σ : Type) where
  /-- The call `http.Get(url)`: a transport error, or the bytes the response body delivers. -/
  httpGet : σ → String → Except String String × σ
  /-- The function `gunzip` on the bytes of a body. -/
  gunzip : String → Except String String
  /-- The function `bunzip` on the bytes of a body. -/
  bunzip : String → Except String String
  /-- The calls `ioutil.TempFile`, `dbFile.Write`, `sql.Open` and the opening of the store by
  `db.Prepare`, for the given target and database bytes: an error, or the rows of the
  table `packages` in scan order. -/
  openIndex : σ → String → String → Except String (List PackageRecord) × σ
  /-- What SQLite answers to a statement text that need not be the intended statement
  (an interpolated value contains a single quote, or the text is very long). -/
  otherStatement : List PackageRecord → String → Except String (List String)
  /-- The message of the error of `db.Prepare` for a statement text that ends inside a
  string literal. -/
  prepareError : String → String
  /-- The call `dbFile.Close()`. -/
  closeFile : σ → Option String × σ
  /-- The function `kernelrelease.FromString`. -/
  fromString : String → KernelRelease
  /-- The function `getResolvingURLs` of the package. -/
  getResolvingURLs : σ → List String → Except String (List String) × σ

/-! ## The package query -/

/-- SQLite's `LIKE` is case-insensitive for ASCII letters unless `PRAGMA case_sensitive_like`
is set, which the code does not do: two characters match when they are equal after the
letters `A` to `Z` are folded to `a` to `z`. The result is the folded character code. -/
def sqliteFold (c : Char) : Nat :=
  if 65 ≤ c.toNat ∧ c.toNat ≤ 90 then c.toNat + 32 else c.toNat

/-- SQLite `text LIKE pattern` with the default settings (no `ESCAPE`, ASCII case folding),
pattern first: `%` matches any run of characters, `_` any one character, any other
character of the pattern matches one character equal to it up to `sqliteFold`. -/
def sqlLike : List Char → List Char → Bool
  | [], s => s.isEmpty
  | c :: p, s =>
    if c = '%' then s.tails.any (sqlLike p)
    else match s with
      | [] => false
      | d :: s' => (c = '_' ∨ sqliteFold c = sqliteFold d) && sqlLike p s'

/-- The NUL character, which ends a C string. -/
def nul : Char := Char.ofNat 0

/-- The text as `LIKE` reads it: SQLite's pattern comparison takes its operands as
NUL-terminated strings, so a text value is compared up to its first NUL character. -/
def likeText (s : String) : List Char := s.data.takeWhile (fun c => c != nul)

/-- The character codes of a text with the ASCII capital letters folded to small letters. -/
def foldASCII (l : List Char) : List Nat := l.map sqliteFold

/-- The `WHERE` clause of the statement, for values `version` and `release` bound as text:
the five `LIKE` tests on the name, and the two comparisons, which are exact. -/
def rowSelected (version release : String) (r : PackageRecord) : Bool :=
  sqlLike "kernel%".data (likeText r.name)
    && !sqlLike "kernel-livepatch%".data (likeText r.name)
    && !sqlLike "%doc%".data (likeText r.name)
    && !sqlLike "%tools%".data (likeText r.name)
    && !sqlLike "%headers%".data (likeText r.name)
    && r.version == version
    && r.release == release

/-- The release string `rel` of the statement. -/
def derivedRelease (kv : KernelRelease) (arch : String) : String :=
  trimPrefix (trimSuffix kv.FullExtraversion ("." ++ arch)) "-"

/-- The statement text `q` built by `fmt.Sprintf`. -/
def queryText (version rel : String) : String :=
  "SELECT location_href FROM packages WHERE name LIKE 'kernel%' AND name NOT LIKE 'kernel-livepatch%' AND name NOT LIKE '%doc%' AND name NOT LIKE '%tools%' AND name NOT LIKE '%headers%' AND version='"
    ++ version ++ "' AND release='" ++ rel ++ "'"

/-- Whether a value interpolated between single quotes would end the SQL string literal. -/
def hasQuote (s : String) : Bool := s.data.contains '\''

/-- Whether a value holds a NUL character: the driver hands the statement text to SQLite
as a C string, which ends at the first NUL. -/
def hasNul (s : String) : Bool := s.data.contains nul

/-- A length, in bytes, up to which SQLite's limit on the length of a statement does not
apply. -/
def plainStatementBytes : Nat := 1000000

/-- The outcome of `db.Prepare(q)` and `stmt.Query()` on an opened index.

* When an interpolated value contains a single quote, or the text is longer than
  `plainStatementBytes`, the text need not be the intended statement (or may be refused for
  its length) and the answer is the engine's.
* Otherwise, when an interpolated value contains a NUL character, the text SQLite reads
  ends inside a string literal and `db.Prepare` fails.
* Otherwise the statement is the intended one and yields the `location_href` of the
  selected rows in scan order. -/
def queryPackages {σ : Type} (env : Env σ) (rows : List PackageRecord) (kv : KernelRelease)
    (arch : String) : Except String (List String) :=
  let rel := derivedRelease kv arch
  let q := queryText kv.Fullversion rel
  if hasQuote kv.Fullversion || hasQuote rel || decide (plainStatementBytes < q.utf8ByteSize) then
    env.otherStatement rows q
  else if hasNul kv.Fullversion || hasNul rel then
    .error (env.prepareError q)
  else
    .ok ((rows.filter (rowSelected kv.Fullversion rel)).map (fun r => r.location_href))

/-- The values interpolated into the statement keep it the intended statement: no single
quote, no NUL character, and a text of at most `plainStatementBytes` bytes. -/
def plainValues (kv : KernelRelease) (arch : String) : Bool :=
  !hasQuote kv.Fullversion && !hasQuote (derivedRelease kv arch)
    && !hasNul kv.Fullversion && !hasNul (derivedRelease kv arch)
    && decide ((queryText kv.Fullversion (derivedRelease kv arch)).utf8ByteSize ≤
      plainStatementBytes)

/-! ## The resolution loop -/

/-- The local variables of `fetchAmazonLinuxPackagesURLs` that live across iterations
(`urls`, the keys of `visited`), with the world state and the trace of effects so far. -/
structure LoopState (σ : Type) where
  urls : List String
  visited : List String
  world : σ
  trace : List Event
  deriving DecidableEq

/-- The `switch targetType` computing `baseURL`; `none` is the `default` branch. -/
def baseURLFor (targetType v arch : String) : Option String :=
  if targetType = TargetTypeAmazonLinux then
    some ("http://repo.us-east-1.amazonaws.com/" ++ v)
  else if targetType = TargetTypeAmazonLinux2 then
    some ("http://amazonlinux.us-east-1.amazonaws.com/2/core/" ++ v ++ "/" ++ arch)
  else none

/-- The URL `mirror`. -/
def mirrorURL (baseURL : String) : String := baseURL ++ "/" ++ "mirror.list"

/-- The URL `repoDatabaseURL` computed from the first line `repo` of the mirror list. -/
def repoDatabaseURL (targetType repo arch : String) : String :=
  let ext := if targetType = TargetTypeAmazonLinux then "bz2" else "gz"
  replaceAll (trimSuffix repo "\n" ++ "/repodata/primary.sqlite." ++ ext) "$basearch" arch

/-- The selection of `unzipFunc`. -/
def unzipFunc {σ : Type} (env : Env σ) (targetType : String) : String → Except String String :=
  if targetType = TargetTypeAmazonLinux then env.bunzip else env.gunzip

/-- One iteration of the loop over `reposByTarget[targetType]`, for the generation `v`:
`some err` stands for `return nil, err`, `none` for reaching the next iteration
(by `continue` or by the end of the body). -/
def probe {σ : Type} (env : Env σ) (kv : KernelRelease) (arch targetType : String)
    (st : LoopState σ) (v : String) : Option String × LoopState σ :=
  match baseURLFor targetType v arch with
  | none => (some "unsupported target", st)
  | some baseURL =>
    let mirror := mirrorURL baseURL
    match env.httpGet st.world mirror with
    | (.error e, w1) =>
      (some e, { st with world := w1, trace := st.trace ++ [Event.mirrorGet mirror] })
    | (.ok body, w1) =>
      let tr1 := st.trace ++ [Event.mirrorGet mirror]
      let repo := scanFirstLine body
      if repo = "" then
        (some "repository not found", { st with world := w1, trace := tr1 })
      else
        let dbURL := repoDatabaseURL targetType repo arch
        if dbURL ∈ st.visited then
          (none, { st with world := w1, trace := tr1 })
        else
          match env.httpGet w1 dbURL with
          | (.error e, w2) =>
            (some e, { st with world := w2, trace := tr1 ++ [Event.indexGet dbURL] })
          | (.ok blob, w2) =>
            let visited := dbURL :: st.visited
            let tr2 := tr1 ++ [Event.indexGet dbURL, Event.unzip dbURL]
            match unzipFunc env targetType blob with
            | .error e =>
              (some e, { st with visited := visited, world := w2, trace := tr2 })
            | .ok dbBytes =>
              match env.openIndex w2 targetType dbBytes with
              | (.error e, w3) =>
                (some e, { st with visited := visited, world := w3, trace := tr2 })
              | (.ok rows, w3) =>
                let tr3 := tr2 ++ [Event.query dbURL]
                match queryPackages env rows kv arch with
                | .error e =>
                  (some e, { st with visited := visited, world := w3, trace := tr3 })
                | .ok hrefs =>
                  let urls := st.urls ++ hrefs.map (fun href => baseURL ++ "/" ++ href)
                  match env.closeFile w3 with
                  | (some e, w4) =>
                    (some e, { urls := urls, visited := visited, world := w4, trace := tr3 })
                  | (none, w4) =>
                    (none, { urls := urls, visited := visited, world := w4, trace := tr3 })

/-- The loop `for _, v := range ...` from a given state over the generations left. -/
def probeAll {σ : Type} (env : Env σ) (kv : KernelRelease) (arch targetType : String) :
    LoopState σ → List String → Option String × LoopState σ
  | st, [] => (none, st)
  | st, v :: vs =>
    match probe env kv arch targetType st v with
    | (some e, st') => (some e, st')
    | (none, st') => probeAll env kv arch targetType st' vs

/-- What a call of `fetchAmazonLinuxPackagesURLs` returns and leaves behind. -/
structure FetchResult (σ : Type) where
  result : Except String (List String)
  world : σ
  trace : List Event
  deriving DecidableEq

/-- The state at loop entry: `urls := []string{}`, `visited := map[string]bool{}`. -/
def initState {σ : Type} (w : σ) : LoopState σ :=
  { urls := [], visited := [], world := w, trace := [] }

/-- The function `fetchAmazonLinuxPackagesURLs`. -/
def fetchAmazonLinuxPackagesURLs {σ : Type} (env : Env σ) (w : σ) (kv : KernelRelease)
    (arch targetType : String) : FetchResult σ :=
  match probeAll env kv arch targetType (initState w) (reposByTarget targetType) with
  | (some e, st) => { result := .error e, world := st.world, trace := st.trace }
  | (none, st) => { result := .ok st.urls, world := st.world, trace := st.trace }

/-! ## The script -/

/-- Execution of `amazonlinuxTemplate`: a newline, then for every URL an empty line and
an `echo` line, then a newline. The template reads no other field of its data. -/
def renderTemplate (kernelDownloadURLs : List String) : String :=
  "\n" ++ String.join (kernelDownloadURLs.map (fun url => "\necho " ++ url ++ "\n")) ++ "\n"

/-- What a call of `script` returns (the string and the error) and leaves behind. -/
structure ScriptResult (σ : Type) where
  text : String
  err : Option String
  world : σ
  deriving DecidableEq

/-- The function `script`. The constant template parses, so `t.Parse` does not fail. -/
def script {σ : Type} (env : Env σ) (w : σ) (c : Config) (targetType : String) :
    ScriptResult σ :=
  let kv := env.fromString c.Build.KernelRelease
  let fetched := fetchAmazonLinuxPackagesURLs env w kv c.Build.Architecture targetType
  match fetched.result with
  | .error e => { text := "", err := some e, world := fetched.world }
  | .ok packages =>
    if packages.length ≠ 2 then
      { text := "",
        err := some ("target " ++ targetType ++
          " needs to find both kernel and kernel-devel packages"),
        world := fetched.world }
    else
      match env.getResolvingURLs fetched.world packages with
      | (.error e, w1) => { text := "", err := some e, world := w1 }
      | (.ok urls, w1) => { text := renderTemplate urls, err := none, world := w1 }

/-! ## The paths through one iteration -/

/-- The paths through one iteration of the loop, for the generation `v` from the state `st`:
each constructor is one way of leaving the body of `probe`, with the oracle answers that
select it and the result it produces. -/
inductive ProbeOutcome {σ : Type} (env : Env σ) (kv : KernelRelease) (arch t : String)
    (st : LoopState σ) (v : String) : Option String × LoopState σ → Prop where
  /-- The `default` branch of the switch. -/
  | unsupported : baseURLFor t v arch = none →
      ProbeOutcome env kv arch t st v (some "unsupported target", st)
  /-- The mirror list cannot be fetched. -/
  | mirrorError (base e : String) (w1 : σ) :
      baseURLFor t v arch = some base →
      env.httpGet st.world (mirrorURL base) = (.error e, w1) →
      ProbeOutcome env kv arch t st v
        (some e, { st with world := w1, trace := st.trace ++ [Event.mirrorGet (mirrorURL base)] })
  /-- The mirror list has no first line. -/
  | notFound (base body : String) (w1 : σ) :
      baseURLFor t v arch = some base →
      env.httpGet st.world (mirrorURL base) = (.ok body, w1) →
      scanFirstLine body = "" →
      ProbeOutcome env kv arch t st v
        (some "repository not found",
          { st with world := w1, trace := st.trace ++ [Event.mirrorGet (mirrorURL base)] })
  /-- The index URL is already visited: `continue`. -/
  | skipped (base body u : String) (w1 : σ) :
      baseURLFor t v arch = some base →
      env.httpGet st.world (mirrorURL base) = (.ok body, w1) →
      scanFirstLine body ≠ "" →
      u = repoDatabaseURL t (scanFirstLine body) arch →
      u ∈ st.visited →
      ProbeOutcome env kv arch t st v
        (none, { st with world := w1, trace := st.trace ++ [Event.mirrorGet (mirrorURL base)] })
  /-- The index cannot be fetched. -/
  | indexError (base body u e : String) (w1 w2 : σ) :
      baseURLFor t v arch = some base →
      env.httpGet st.world (mirrorURL base) = (.ok body, w1) →
      scanFirstLine body ≠ "" →
      u = repoDatabaseURL t (scanFirstLine body) arch →
      u ∉ st.visited →
      env.httpGet w1 u = (.error e, w2) →
      ProbeOutcome env kv arch t st v
        (some e, { st with world := w2,
                           trace := st.trace ++ [Event.mirrorGet (mirrorURL base)] ++
                             [Event.indexGet u] })
  /-- The index cannot be decompressed. -/
  | unzipError (base body u blob e : String) (w1 w2 : σ) :
      baseURLFor t v arch = some base →
      env.httpGet st.world (mirrorURL base) = (.ok body, w1) →
      scanFirstLine body ≠ "" →
      u = repoDatabaseURL t (scanFirstLine body) arch →
      u ∉ st.visited →
      env.httpGet w1 u = (.ok blob, w2) →
      unzipFunc env t blob = .error e →
      ProbeOutcome env kv arch t st v
        (some e, { st with visited := u :: st.visited, world := w2,
                           trace := st.trace ++ [Event.mirrorGet (mirrorURL base)] ++
                             [Event.indexGet u, Event.unzip u] })
  /-- The index cannot be stored or opened. -/
  | openError (base body u blob dbBytes e : String) (w1 w2 w3 : σ) :
      baseURLFor t v arch = some base →
      env.httpGet st.world (mirrorURL base) = (.ok body, w1) →
      scanFirstLine body ≠ "" →
      u = repoDatabaseURL t (scanFirstLine body) arch →
      u ∉ st.visited →
      env.httpGet w1 u = (.ok blob, w2) →
      unzipFunc env t blob = .ok dbBytes →
      env.openIndex w2 t dbBytes = (.error e, w3) →
      ProbeOutcome env kv arch t st v
        (some e, { st with visited := u :: st.visited, world := w3,
                           trace := st.trace ++ [Event.mirrorGet (mirrorURL base)] ++
                             [Event.indexGet u, Event.unzip u] })
  /-- The statement fails. -/
  | queryError (base body u blob dbBytes e : String) (rows : List PackageRecord)
      (w1 w2 w3 : σ) :
      baseURLFor t v arch = some base →
      env.httpGet st.world (mirrorURL base) = (.ok body, w1) →
      scanFirstLine body ≠ "" →
      u = repoDatabaseURL t (scanFirstLine body) arch →
      u ∉ st.visited →
      env.httpGet w1 u = (.ok blob, w2) →
      unzipFunc env t blob = .ok dbBytes →
      env.openIndex w2 t dbBytes = (.ok rows, w3) →
      queryPackages env rows kv arch = .error e →
      ProbeOutcome env kv arch t st v
        (some e, { st with visited := u :: st.visited, world := w3,
                           trace := st.trace ++ [Event.mirrorGet (mirrorURL base)] ++
                             [Event.indexGet u, Event.unzip u] ++ [Event.query u] })
  /-- The rows are appended and closing the temporary file fails (`some e`) or the
  iteration completes (`none`). -/
  | queried (base body u blob dbBytes : String) (rows : List PackageRecord)
      (hrefs : List String) (w1 w2 w3 w4 : σ) (r : Option String) :
      baseURLFor t v arch = some base →
      env.httpGet st.world (mirrorURL base) = (.ok body, w1) →
      scanFirstLine body ≠ "" →
      u = repoDatabaseURL t (scanFirstLine body) arch →
      u ∉ st.visited →
      env.httpGet w1 u = (.ok blob, w2) →
      unzipFunc env t blob = .ok dbBytes →
      env.openIndex w2 t dbBytes = (.ok rows, w3) →
      queryPackages env rows kv arch = .ok hrefs →
      env.closeFile w3 = (r, w4) →
      ProbeOutcome env kv arch t st v
        (r, { urls := st.urls ++ hrefs.map (fun href => base ++ "/" ++ href),
              visited := u :: st.visited, world := w4,
              trace := st.trace ++ [Event.mirrorGet (mirrorURL base)] ++
                [Event.indexGet u, Event.unzip u] ++ [Event.query u] })

/-- The URLs each generation contributed in a run of the loop from `st`, generation by
generation: what the iteration for the generation added to `urls`. -/
def contributions {σ : Type} (env : Env σ) (kv : KernelRelease) (arch targetType : String) :
    LoopState σ → List String → List (List String)
  | _, [] => []
  | st, v :: vs =>
    (((probe env kv arch targetType st v).2.urls).drop st.urls.length) ::
      contributions env kv arch targetType (probe env kv arch targetType st v).2 vs

/-- The loop state of a call when the generations `pre` at the head of the table have
been probed. -/
def stateAfter {σ : Type} (env : Env σ) (w : σ) (kv : KernelRelease) (arch targetType : String)
    (pre : List String) : LoopState σ :=
  (probeAll env kv arch targetType (initState w) pre).2

/-- The iteration for the generation `v` from the state `st` computes the base URL `base`
and finds the index URL of its mirror list already visited. -/
def SkipsIndex {σ : Type} (env : Env σ) (arch targetType : String) (st : LoopState σ)
    (v base : String) : Prop :=
  baseURLFor targetType v arch = some base ∧
  ∃ body w1, env.httpGet st.world (mirrorURL base) = (.ok body, w1) ∧
    scanFirstLine body ≠ "" ∧
    repoDatabaseURL targetType (scanFirstLine body) arch ∈ st.visited

/-- The iteration for the generation `v` from the state `st` computes the base URL `base`,
downloads the index its mirror list points to, which is not yet visited, and opens it
with the rows `rows`. -/
def OpensIndex {σ : Type} (env : Env σ) (arch targetType : String) (st : LoopState σ)
    (v base : String) (rows : List PackageRecord) : Prop :=
  baseURLFor targetType v arch = some base ∧
  ∃ body w1 blob w2 dbBytes w3,
    env.httpGet st.world (mirrorURL base) = (.ok body, w1) ∧
    scanFirstLine body ≠ "" ∧
    repoDatabaseURL targetType (scanFirstLine body) arch ∉ st.visited ∧
    env.httpGet w1 (repoDatabaseURL targetType (scanFirstLine body) arch) = (.ok blob, w2) ∧
    unzipFunc env targetType blob = .ok dbBytes ∧
    env.openIndex w2 targetType dbBytes = (.ok rows, w3)

/-! ## Invariants of the loop -/

/-- Every index URL that is not yet visited has left no index event in the trace. -/
def Tracked {σ : Type} (st : LoopState σ) : Prop :=
  ∀ u, u ∉ st.visited →
    Event.indexGet u ∉ st.trace ∧ Event.unzip u ∉ st.trace ∧ Event.query u ∉ st.trace

/-- Every index URL has at most one download, one decompression and one query in the trace. -/
def Once (tr : List Event) : Prop :=
  ∀ u, tr.count (Event.indexGet u) ≤ 1 ∧ tr.count (Event.unzip u) ≤ 1 ∧
    tr.count (Event.query u) ≤ 1

/-! ## A fixture environment -/

/-- A fixture parse of a release string: the text before the first hyphen is the full
version, the rest the full extraversion. -/
def fixtureFromString (s : String) : KernelRelease :=
  ⟨⟨s.data.takeWhile (fun c => c != '-')⟩, ⟨s.data.dropWhile (fun c => c != '-')⟩⟩

/-- Endpoints where every mirror list answers with the given body and every other URL
with a blob. -/
def mirrorsAnswer (mirrorBody : String) (url : String) : Except String String :=
  if "/mirror.list".data.isSuffixOf url.data then .ok mirrorBody else .ok "blob"

/-- A deterministic environment: the endpoints answer by `respond`, decompression is the
identity, every opened index has the given rows, and every URL resolves. -/
def fixtureEnv (respond : String → Except String String) (rows : List PackageRecord) :
    Env Unit where
  httpGet := fun w url => (respond url, w)
  gunzip := fun b => .ok b
  bunzip := fun b => .ok b
  openIndex := fun w _ _ => (.ok rows, w)
  otherStatement := fun _ _ => .error "syntax error"
  prepareError := fun _ => "unrecognized token"
  closeFile := fun w => (none, w)
  fromString := fixtureFromString
  getResolvingURLs := fun w urls => (.ok urls, w)

/-- The index of the end-to-end scenario: `kernel` and `kernel-devel` at `5.10.0`, `1.el2`. -/
def fixtureRows : List PackageRecord :=
  [⟨"kernel", "5.10.0", "1.el2", "Packages/kernel-5.10.0-1.el2.x86_64.rpm"⟩,
   ⟨"kernel-devel", "5.10.0", "1.el2", "Packages/kernel-devel-5.10.0-1.el2.x86_64.rpm"⟩]

/-- The configuration of the end-to-end scenario. -/
def fixtureConfig : Config :=
  ⟨⟨"5.10.0-1.el2.x86_64", "x86_64", "", ""⟩⟩

/-- The kernel release of the end-to-end scenario, as parsed. -/
def fixtureKernel : KernelRelease := ⟨"5.10.0", "-1.el2.x86_64"⟩

/-- Endpoints like `mirrorsAnswer`, except that the mirror list of the generation `latest`
of `amazonlinux2` on `x86_64` is empty. -/
def latestMirrorEmpty (url : String) : Except String String :=
  if url = "http://amazonlinux.us-east-1.amazonaws.com/2/core/latest/x86_64/mirror.list" then
    .ok ""
  else mirrorsAnswer "http://mirror.example/repo\n" url

/-- The loop state of the end-to-end scenario after the generation `2.0`. -/
def fixtureAfterFirst : LoopState Unit :=
  { urls :=
      ["http://amazonlinux.us-east-1.amazonaws.com/2/core/2.0/x86_64/Packages/kernel-5.10.0-1.el2.x86_64.rpm",
       "http://amazonlinux.us-east-1.amazonaws.com/2/core/2.0/x86_64/Packages/kernel-devel-5.10.0-1.el2.x86_64.rpm"],
    visited := ["http://mirror.example/repo/repodata/primary.sqlite.gz"],
    world := (),
    trace :=
      [Event.mirrorGet "http://amazonlinux.us-east-1.amazonaws.com/2/core/2.0/x86_64/mirror.list",
       Event.indexGet "http://mirror.example/repo/repodata/primary.sqlite.gz",
       Event.unzip "http://mirror.example/repo/repodata/primary.sqlite.gz",
       Event.query "http://mirror.example/repo/repodata/primary.sqlite.gz"] }

/-- An index with two matching rows, none of them named `kernel-devel`. -/
def debuginfoRows : List PackageRecord :=
  [⟨"kernel", "5.10.0", "1.el2", "Packages/kernel-5.10.0-1.el2.x86_64.rpm"⟩,
   ⟨"kernel-debuginfo", "5.10.0", "1.el2", "Packages/kernel-debuginfo-5.10.0-1.el2.x86_64.rpm"⟩]

/-- An index whose only row differs from `kernel` by the case of a letter. -/
def capitalRows : List PackageRecord :=
  [⟨"Kernel", "5.10.0", "1.el2", "Packages/Kernel-5.10.0-1.el2.x86_64.rpm"⟩]

/-- A kernel release whose extraversion holds a NUL character and no single quote. -/
def nulKernel : KernelRelease := ⟨"5.10.0", "-1.el2\x00zz.x86_64"⟩

/-! ## Release string -/

theorem trimSuffix_append (s t : String) : trimSuffix (s ++ t) t = s := by
  unfold trimSuffix
  have h : t.data.isSuffixOf (s ++ t).data = true := by
    simp [String.data_append, List.isSuffixOf_iff_suffix]
  rw [if_pos h]
  simp [String.data_append]

theorem trimPrefix_append (s t : String) : trimPrefix (s ++ t) s = t := by
  unfold trimPrefix
  have h : s.data.isPrefixOf (s ++ t).data = true := by
    simp [String.data_append]
  rw [if_pos h]
  simp [String.data_append]

/-- C4: when the full extraversion is a hyphen, then `r`, then a dot and the architecture,
the derived release is exactly `r`, whatever `r` and the architecture are; for
`-1.el2.x86_64` and `x86_64` it is `1.el2`. -/
theorem derivedRelease_hyphen_arch (fv r a : String) :
    derivedRelease ⟨fv, "-" ++ r ++ "." ++ a⟩ a = r ∧
      derivedRelease ⟨fv, "-1.el2.x86_64"⟩ "x86_64" = "1.el2" := by
  constructor
  · unfold derivedRelease
    simp only []
    rw [String.append_assoc ("-" ++ r) "." a, trimSuffix_append, trimPrefix_append]
  · show trimPrefix (trimSuffix "-1.el2.x86_64" ("." ++ "x86_64")) "-" = "1.el2"
    decide

/-- C3 (as stated, refuted): for `-152.320.amzn2` and `x86_64` the derived release is not
`152.320`. -/
theorem derivedRelease_amzn2_ne :
    derivedRelease ⟨"4.14", "-152.320.amzn2"⟩ "x86_64" ≠ "152.320" := by
  decide

/-- C3 (amended): for `-152.320.amzn2` and `x86_64` the derived release is `152.320.amzn2`:
the extraversion does not end in `.x86_64`, so only the leading hyphen is removed. -/
theorem derivedRelease_amzn2 (fv : String) :
    derivedRelease ⟨fv, "-152.320.amzn2"⟩ "x86_64" = "152.320.amzn2" := by
  show trimPrefix (trimSuffix "-152.320.amzn2" ("." ++ "x86_64")) "-" = "152.320.amzn2"
  decide

/-! ## Unknown targets -/

/-- C8 (evaluation at the failing input): for the target `centos`, which is in neither
table, the loop body never runs and the call returns the empty list without an error. -/
theorem fetch_centos_no_error {σ : Type} (env : Env σ) (w : σ) (kv : KernelRelease)
    (arch : String) :
    (fetchAmazonLinuxPackagesURLs env w kv arch "centos").result = .ok [] := by
  have h : reposByTarget "centos" = [] := by decide
  simp [fetchAmazonLinuxPackagesURLs, h, probeAll, initState]

/-! ## The package count check -/

/-- C1: when the fetch returns a list without error, `script` returns the empty string and
the count error if the list does not have exactly 2 entries, and `script` returns without
error only if the list has exactly 2 entries. -/
theorem script_requires_two {σ : Type} (env : Env σ) (w : σ) (c : Config)
    (targetType : String) (packages : List String)
    (hfetch : (fetchAmazonLinuxPackagesURLs env w (env.fromString c.Build.KernelRelease)
      c.Build.Architecture targetType).result = .ok packages) :
    (packages.length ≠ 2 →
      (script env w c targetType).text = "" ∧
      (script env w c targetType).err = some ("target " ++ targetType ++
        " needs to find both kernel and kernel-devel packages")) ∧
    ((script env w c targetType).err = none → packages.length = 2) := by
  unfold script
  simp only [hfetch]
  by_cases hlen : packages.length = 2
  · simp [hlen]
  · simp [hlen]

/-- C1 (witness): on the fixture with an index that has no matching row the fetch returns
the empty list and `script` fails. -/
theorem script_requires_two_witness :
    (fetchAmazonLinuxPackagesURLs (fixtureEnv (mirrorsAnswer "http://mirror.example/repo\n") [])
        () ((fixtureEnv (mirrorsAnswer "http://mirror.example/repo\n") []).fromString
          fixtureConfig.Build.KernelRelease)
        fixtureConfig.Build.Architecture TargetTypeAmazonLinux2).result = .ok [] ∧
      (([] : List String).length ≠ 2 →
        (script (fixtureEnv (mirrorsAnswer "http://mirror.example/repo\n") []) () fixtureConfig
          TargetTypeAmazonLinux2).text = "" ∧
        (script (fixtureEnv (mirrorsAnswer "http://mirror.example/repo\n") []) () fixtureConfig
          TargetTypeAmazonLinux2).err = some ("target " ++ TargetTypeAmazonLinux2 ++
            " needs to find both kernel and kernel-devel packages")) ∧
      ((script (fixtureEnv (mirrorsAnswer "http://mirror.example/repo\n") []) () fixtureConfig
          TargetTypeAmazonLinux2).err = none → ([] : List String).length = 2) :=
  ⟨by decide, script_requires_two _ () fixtureConfig TargetTypeAmazonLinux2 [] (by decide)⟩

/-! ## One iteration -/

theorem probe_outcome {σ : Type} (env : Env σ) (kv : KernelRelease) (arch t : String)
    (st : LoopState σ) (v : String) :
    ProbeOutcome env kv arch t st v (probe env kv arch t st v) := by
  unfold probe
  cases hb : baseURLFor t v arch with
  | none => exact .unsupported hb
  | some base =>
    dsimp only
    rcases hm : env.httpGet st.world (mirrorURL base) with ⟨e | body, w1⟩
    · exact .mirrorError base e w1 hb hm
    · dsimp only
      by_cases hrepo : scanFirstLine body = ""
      · rw [if_pos hrepo]
        exact .notFound base body w1 hb hm hrepo
      · rw [if_neg hrepo]
        by_cases hvis : repoDatabaseURL t (scanFirstLine body) arch ∈ st.visited
        · rw [if_pos hvis]
          exact .skipped base body _ w1 hb hm hrepo rfl hvis
        · rw [if_neg hvis]
          rcases hi : env.httpGet w1 (repoDatabaseURL t (scanFirstLine body) arch)
            with ⟨e | blob, w2⟩
          · exact .indexError base body _ e w1 w2 hb hm hrepo rfl hvis hi
          · dsimp only
            cases hz : unzipFunc env t blob with
            | error e => exact .unzipError base body _ blob e w1 w2 hb hm hrepo rfl hvis hi hz
            | ok dbBytes =>
              dsimp only
              rcases ho : env.openIndex w2 t dbBytes with ⟨e | rows, w3⟩
              · exact .openError base body _ blob dbBytes e w1 w2 w3 hb hm hrepo rfl hvis hi hz ho
              · dsimp only
                cases hq : queryPackages env rows kv arch with
                | error e =>
                  exact .queryError base body _ blob dbBytes e rows w1 w2 w3
                    hb hm hrepo rfl hvis hi hz ho hq
                | ok hrefs =>
                  dsimp only
                  rcases hc : env.closeFile w3 with ⟨_ | e, w4⟩
                  · exact .queried base body _ blob dbBytes rows hrefs w1 w2 w3 w4 none
                      hb hm hrepo rfl hvis hi hz ho hq hc
                  · exact .queried base body _ blob dbBytes rows hrefs w1 w2 w3 w4 (some e)
                      hb hm hrepo rfl hvis hi hz ho hq hc

theorem probeAll_append {σ : Type} (env : Env σ) (kv : KernelRelease) (arch t : String)
    (pre post : List String) (st : LoopState σ) :
    probeAll env kv arch t st (pre ++ post) =
      match probeAll env kv arch t st pre with
      | (some e, st1) => (some e, st1)
      | (none, st1) => probeAll env kv arch t st1 post := by
  induction pre generalizing st with
  | nil => simp [probeAll]
  | cons v vs ih =>
    simp only [List.cons_append, probeAll]
    rcases h : probe env kv arch t st v with ⟨_ | e, st1⟩
    · simp [ih]
    · simp

theorem probe_notFound {σ : Type} (env : Env σ) (kv : KernelRelease) (arch t : String)
    (st : LoopState σ) (v base body : String) (w1 : σ)
    (hbase : baseURLFor t v arch = some base)
    (hget : env.httpGet st.world (mirrorURL base) = (.ok body, w1))
    (hline : scanFirstLine body = "") :
    probe env kv arch t st v =
      (some "repository not found",
        { st with world := w1, trace := st.trace ++ [Event.mirrorGet (mirrorURL base)] }) := by
  unfold probe
  simp only [hbase, hget, hline, if_true]

theorem probe_skipped {σ : Type} (env : Env σ) (kv : KernelRelease) (arch t : String)
    (st : LoopState σ) (v base body : String) (w1 : σ)
    (hbase : baseURLFor t v arch = some base)
    (hget : env.httpGet st.world (mirrorURL base) = (.ok body, w1))
    (hline : scanFirstLine body ≠ "")
    (hvis : repoDatabaseURL t (scanFirstLine body) arch ∈ st.visited) :
    probe env kv arch t st v =
      (none, { st with world := w1, trace := st.trace ++ [Event.mirrorGet (mirrorURL base)] }) := by
  unfold probe
  simp only [hbase, hget, hline, hvis, if_true, if_false]

/-! ## Each index is processed once -/

theorem once_mirror (tr : List Event) (m : String) (h : Once tr) :
    Once (tr ++ [Event.mirrorGet m]) := by
  intro u
  simpa [List.count_append, List.count_cons] using h u

theorem once_index (tr : List Event) (m u : String) (extra : List Event) (h : Once tr)
    (hnew : Event.indexGet u ∉ tr ∧ Event.unzip u ∉ tr ∧ Event.query u ∉ tr)
    (hextra : extra.Sublist [Event.indexGet u, Event.unzip u, Event.query u]) :
    Once (tr ++ [Event.mirrorGet m] ++ extra) := by
  intro u1
  have hsub : ∀ e, extra.count e ≤ [Event.indexGet u, Event.unzip u, Event.query u].count e :=
    fun e => hextra.count_le e
  have h1 := hsub (Event.indexGet u1)
  have h2 := hsub (Event.unzip u1)
  have h3 := hsub (Event.query u1)
  have hO := h u1
  simp only [List.count_append, List.count_cons, List.count_nil] at h1 h2 h3 ⊢
  by_cases hu : u = u1
  · subst hu
    have z1 := List.count_eq_zero.mpr hnew.1
    have z2 := List.count_eq_zero.mpr hnew.2.1
    have z3 := List.count_eq_zero.mpr hnew.2.2
    simp at h1 h2 h3 ⊢
    omega
  · simp [hu] at h1 h2 h3 ⊢
    omega

theorem tracked_mirror {σ : Type} (st : LoopState σ) (m : String) (w1 : σ) (h : Tracked st) :
    Tracked { st with world := w1, trace := st.trace ++ [Event.mirrorGet m] } := by
  intro u hu
  have := h u hu
  simpa using this

theorem tracked_index {σ : Type} (st : LoopState σ) (m u : String) (w1 : σ)
    (urls : List String) (h : Tracked st) :
    Tracked { urls := urls, visited := u :: st.visited, world := w1,
              trace := st.trace ++ [Event.mirrorGet m] ++ [Event.indexGet u, Event.unzip u] ++
                [Event.query u] } := by
  intro u1 hu1
  simp only [List.mem_cons, not_or] at hu1
  have := h u1 hu1.2
  simpa [hu1.1] using this

/-- One iteration keeps both invariants (the second one when it does not fail). -/
theorem probe_invariant {σ : Type} (env : Env σ) (kv : KernelRelease) (arch t : String)
    (st : LoopState σ) (v : String) (hO : Once st.trace) (hT : Tracked st) :
    Once (probe env kv arch t st v).2.trace ∧
      ((probe env kv arch t st v).1 = none → Tracked (probe env kv arch t st v).2) := by
  have h := probe_outcome env kv arch t st v
  generalize probe env kv arch t st v = r at h
  cases h with
  | unsupported _ => exact ⟨hO, by simp⟩
  | mirrorError base e w1 _ _ => exact ⟨once_mirror _ _ hO, by simp⟩
  | notFound base body w1 _ _ _ => exact ⟨once_mirror _ _ hO, by simp⟩
  | skipped base body u w1 _ _ _ _ _ =>
    exact ⟨once_mirror _ _ hO, fun _ => tracked_mirror st _ w1 hT⟩
  | indexError base body u e w1 w2 _ _ _ _ hvis _ =>
    exact ⟨once_index _ _ u _ hO (hT u hvis) (by simp), by simp⟩
  | unzipError base body u blob e w1 w2 _ _ _ _ hvis _ _ =>
    exact ⟨once_index _ _ u _ hO (hT u hvis) (by simp), by simp⟩
  | openError base body u blob dbBytes e w1 w2 w3 _ _ _ _ hvis _ _ _ =>
    exact ⟨once_index _ _ u _ hO (hT u hvis) (by simp), by simp⟩
  | queryError base body u blob dbBytes e rows w1 w2 w3 _ _ _ _ hvis _ _ _ _ =>
    refine ⟨?_, by simp⟩
    have := once_index st.trace (mirrorURL base) u _ hO (hT u hvis) (List.Sublist.refl _)
    simpa [List.append_assoc] using this
  | queried base body u blob dbBytes rows hrefs w1 w2 w3 w4 r _ _ _ _ hvis _ _ _ _ _ =>
    refine ⟨?_, fun _ => tracked_index st _ u w4 _ hT⟩
    have := once_index st.trace (mirrorURL base) u _ hO (hT u hvis) (List.Sublist.refl _)
    simpa [List.append_assoc] using this

theorem probeAll_invariant {σ : Type} (env : Env σ) (kv : KernelRelease) (arch t : String)
    (gens : List String) (st : LoopState σ) (hO : Once st.trace) (hT : Tracked st) :
    Once (probeAll env kv arch t st gens).2.trace ∧
      ((probeAll env kv arch t st gens).1 = none → Tracked (probeAll env kv arch t st gens).2) := by
  induction gens generalizing st with
  | nil => exact ⟨hO, fun _ => hT⟩
  | cons v vs ih =>
    have hp := probe_invariant env kv arch t st v hO hT
    unfold probeAll
    rcases hr : probe env kv arch t st v with ⟨_ | e, st1⟩
    · rw [hr] at hp
      exact ih st1 hp.1 (hp.2 rfl)
    · rw [hr] at hp
      exact ⟨hp.1, by simp⟩

theorem fetch_trace_eq {σ : Type} (env : Env σ) (w : σ) (kv : KernelRelease)
    (arch t : String) :
    (fetchAmazonLinuxPackagesURLs env w kv arch t).trace =
      (probeAll env kv arch t (initState w) (reposByTarget t)).2.trace := by
  unfold fetchAmazonLinuxPackagesURLs
  rcases probeAll env kv arch t (initState w) (reposByTarget t) with ⟨_ | e, st⟩ <;> rfl

/-- C5: in one run every index URL is downloaded, decompressed and queried at most once,
whatever the endpoints answer; and a generation reached by the loop whose index URL was
downloaded by an earlier generation completes without error, leaving the URL list and the
visited set as they were and adding only its mirror request to the trace. -/
theorem index_processed_once {σ : Type} (env : Env σ) (w : σ) (kv : KernelRelease)
    (arch t : String) :
    (∀ u, (fetchAmazonLinuxPackagesURLs env w kv arch t).trace.count (Event.indexGet u) ≤ 1 ∧
        (fetchAmazonLinuxPackagesURLs env w kv arch t).trace.count (Event.unzip u) ≤ 1 ∧
        (fetchAmazonLinuxPackagesURLs env w kv arch t).trace.count (Event.query u) ≤ 1) ∧
    (∀ (pre post : List String) (v base body : String) (st1 : LoopState σ) (w1 : σ),
      reposByTarget t = pre ++ v :: post →
      probeAll env kv arch t (initState w) pre = (none, st1) →
      baseURLFor t v arch = some base →
      env.httpGet st1.world (mirrorURL base) = (.ok body, w1) →
      scanFirstLine body ≠ "" →
      Event.indexGet (repoDatabaseURL t (scanFirstLine body) arch) ∈ st1.trace →
      probe env kv arch t st1 v =
        (none, { urls := st1.urls, visited := st1.visited, world := w1,
                 trace := st1.trace ++ [Event.mirrorGet (mirrorURL base)] })) := by
  have hO0 : Once (initState w).trace := by
    intro u
    simp [initState]
  have hT0 : Tracked (initState w) := by
    intro u _
    simp [initState]
  constructor
  · rw [fetch_trace_eq]
    exact (probeAll_invariant env kv arch t _ _ hO0 hT0).1
  · intro pre post v base body st1 w1 _ hpre hbase hget hline hmem
    have hinv := probeAll_invariant env kv arch t pre _ hO0 hT0
    rw [hpre] at hinv
    have hT1 : Tracked st1 := hinv.2 rfl
    have hvis : repoDatabaseURL t (scanFirstLine body) arch ∈ st1.visited := by
      by_contra hnot
      exact (hT1 _ hnot).1 hmem
    exact probe_skipped env kv arch t st1 v base body w1 hbase hget hline hvis

/-- C5 (witness): in the end-to-end scenario both generations of `amazonlinux2` resolve to
the same index; the generation `latest` only asks its mirror. -/
theorem index_processed_once_witness :
    probe (fixtureEnv (mirrorsAnswer "http://mirror.example/repo\n") fixtureRows) fixtureKernel
        "x86_64" TargetTypeAmazonLinux2 fixtureAfterFirst "latest" =
      (none, { urls := fixtureAfterFirst.urls, visited := fixtureAfterFirst.visited, world := (),
               trace := fixtureAfterFirst.trace ++ [Event.mirrorGet (mirrorURL
                 "http://amazonlinux.us-east-1.amazonaws.com/2/core/latest/x86_64")] }) :=
  (index_processed_once (fixtureEnv (mirrorsAnswer "http://mirror.example/repo\n") fixtureRows)
    () fixtureKernel "x86_64" TargetTypeAmazonLinux2).2 ["2.0"] [] "latest"
    "http://amazonlinux.us-east-1.amazonaws.com/2/core/latest/x86_64"
    "http://mirror.example/repo\n" fixtureAfterFirst ()
    (by decide) (by decide) (by decide) (by decide) (by decide) (by decide)

/-! ## An empty mirror list aborts the resolution -/

/-- C10: when the loop reaches a generation whose mirror list has an empty or missing first
line, the call returns the error `repository not found` and no list, whatever the earlier
generations contributed, and the mirror request of that generation is the last effect. -/
theorem empty_mirror_aborts {σ : Type} (env : Env σ) (w : σ) (kv : KernelRelease)
    (arch t : String) (pre post : List String) (v base body : String)
    (st1 : LoopState σ) (w1 : σ)
    (hgens : reposByTarget t = pre ++ v :: post)
    (hpre : probeAll env kv arch t (initState w) pre = (none, st1))
    (hbase : baseURLFor t v arch = some base)
    (hget : env.httpGet st1.world (mirrorURL base) = (.ok body, w1))
    (hline : scanFirstLine body = "") :
    fetchAmazonLinuxPackagesURLs env w kv arch t =
      { result := .error "repository not found", world := w1,
        trace := st1.trace ++ [Event.mirrorGet (mirrorURL base)] } := by
  unfold fetchAmazonLinuxPackagesURLs
  rw [hgens, probeAll_append, hpre]
  simp only [probeAll, probe_notFound env kv arch t st1 v base body w1 hbase hget hline]

/-- C10 (witness): the generation `2.0` contributes two URLs, the mirror list of `latest`
is empty, and the call fails as a whole. -/
theorem empty_mirror_aborts_witness :
    fetchAmazonLinuxPackagesURLs (fixtureEnv latestMirrorEmpty fixtureRows) () fixtureKernel
        "x86_64" TargetTypeAmazonLinux2 =
      { result := .error "repository not found", world := (),
        trace := fixtureAfterFirst.trace ++ [Event.mirrorGet (mirrorURL
          "http://amazonlinux.us-east-1.amazonaws.com/2/core/latest/x86_64")] } :=
  empty_mirror_aborts (fixtureEnv latestMirrorEmpty fixtureRows) () fixtureKernel "x86_64"
    TargetTypeAmazonLinux2 ["2.0"] [] "latest"
    "http://amazonlinux.us-east-1.amazonaws.com/2/core/latest/x86_64" "" fixtureAfterFirst ()
    (by decide) (by decide) (by decide) (by decide) (by decide)

/-! ## What an iteration appends, and in which order -/

/-- A completed iteration appends, for the rows `hrefs` of its query (none when the index
was already visited), the URLs `baseURL/href`. -/
theorem probe_appended {σ : Type} (env : Env σ) (kv : KernelRelease) (arch t : String)
    (st st1 : LoopState σ) (v : String) (h : probe env kv arch t st v = (none, st1)) :
    ∃ base hrefs, baseURLFor t v arch = some base ∧
      st1.urls = st.urls ++ hrefs.map (fun href => base ++ "/" ++ href) ∧
      (hrefs = [] ∨ ∃ w bytes rows w1, env.openIndex w t bytes = (.ok rows, w1) ∧
        queryPackages env rows kv arch = .ok hrefs) := by
  have ho := probe_outcome env kv arch t st v
  rw [h] at ho
  generalize hr : (none, st1) = r at ho
  cases ho with
  | unsupported _ => simp at hr
  | mirrorError base e w1 _ _ => simp at hr
  | notFound base body w1 _ _ _ => simp at hr
  | skipped base body u w1 hb _ _ _ _ =>
    simp only [Prod.mk.injEq, true_and] at hr
    subst hr
    exact ⟨base, [], hb, by simp, Or.inl rfl⟩
  | indexError base body u e w1 w2 _ _ _ _ hvis _ => simp at hr
  | unzipError base body u blob e w1 w2 _ _ _ _ hvis _ _ => simp at hr
  | openError base body u blob dbBytes e w1 w2 w3 _ _ _ _ hvis _ _ _ => simp at hr
  | queryError base body u blob dbBytes e rows w1 w2 w3 _ _ _ _ hvis _ _ _ _ => simp at hr
  | queried base body u blob dbBytes rows hrefs w1 w2 w3 w4 r hb _ _ _ hvis _ _ ho hq _ =>
    simp only [Prod.mk.injEq] at hr
    obtain ⟨_, hst⟩ := hr
    subst hst
    exact ⟨base, hrefs, hb, rfl, Or.inr ⟨_, _, _, _, ho, hq⟩⟩

theorem probeAll_cons_none {σ : Type} (env : Env σ) (kv : KernelRelease) (arch t : String)
    (st st2 : LoopState σ) (v : String) (vs : List String)
    (h : probeAll env kv arch t st (v :: vs) = (none, st2)) :
    probe env kv arch t st v = (none, (probe env kv arch t st v).2) ∧
      probeAll env kv arch t (probe env kv arch t st v).2 vs = (none, st2) := by
  unfold probeAll at h
  rcases hr : probe env kv arch t st v with ⟨_ | e, st1⟩
  · rw [hr] at h
    exact ⟨rfl, h⟩
  · rw [hr] at h
    simp at h

theorem probeAll_contributions {σ : Type} (env : Env σ) (kv : KernelRelease) (arch t : String)
    (gens : List String) (st st2 : LoopState σ)
    (h : probeAll env kv arch t st gens = (none, st2)) :
    st2.urls = st.urls ++ (contributions env kv arch t st gens).flatten ∧
      List.Forall₂ (fun v c => ∃ (base : String) (hrefs : List String), baseURLFor t v arch = some base ∧
          c = hrefs.map (fun href => base ++ "/" ++ href))
        gens (contributions env kv arch t st gens) := by
  induction gens generalizing st with
  | nil =>
    simp only [probeAll, Prod.mk.injEq, true_and] at h
    subst h
    simp [contributions]
  | cons v vs ih =>
    obtain ⟨hp, hrest⟩ := probeAll_cons_none env kv arch t st st2 v vs h
    obtain ⟨base, hrefs, hb, hurls, _⟩ := probe_appended env kv arch t st _ v hp
    obtain ⟨ih1, ih2⟩ := ih _ hrest
    have hdrop : ((probe env kv arch t st v).2.urls).drop st.urls.length =
        hrefs.map (fun href => base ++ "/" ++ href) := by
      rw [hurls, List.drop_left]
    constructor
    · rw [ih1, contributions, List.flatten_cons, hdrop, hurls, List.append_assoc]
    · rw [contributions]
      exact List.Forall₂.cons ⟨base, hrefs, hb, hdrop⟩ ih2

theorem fetch_ok_probeAll {σ : Type} (env : Env σ) (w : σ) (kv : KernelRelease)
    (arch t : String) (urls : List String)
    (h : (fetchAmazonLinuxPackagesURLs env w kv arch t).result = .ok urls) :
    ∃ st, probeAll env kv arch t (initState w) (reposByTarget t) = (none, st) ∧ st.urls = urls := by
  unfold fetchAmazonLinuxPackagesURLs at h
  rcases hr : probeAll env kv arch t (initState w) (reposByTarget t) with ⟨_ | e, st⟩
  · rw [hr] at h
    simp only [Except.ok.injEq] at h
    exact ⟨st, rfl, h⟩
  · rw [hr] at h
    simp at h

/-- C9: the generations are probed in the order of the table, and the list a successful call
returns is the concatenation, in that order, of what each generation contributed, every
contribution being URLs under the base URL of its own generation. -/
theorem fetch_urls_in_probe_order {σ : Type} (env : Env σ) (w : σ) (kv : KernelRelease)
    (arch t : String) (urls : List String)
    (h : (fetchAmazonLinuxPackagesURLs env w kv arch t).result = .ok urls) :
    reposByTarget "amazonlinux2" = ["2.0", "latest"] ∧
    reposByTarget "amazonlinux" =
      ["latest/updates", "latest/main", "2017.03/updates", "2017.03/main",
       "2017.09/updates", "2017.09/main", "2018.03/updates", "2018.03/main"] ∧
    urls = (contributions env kv arch t (initState w) (reposByTarget t)).flatten ∧
    List.Forall₂ (fun v c => ∃ (base : String) (hrefs : List String), baseURLFor t v arch = some base ∧
        c = hrefs.map (fun href => base ++ "/" ++ href))
      (reposByTarget t) (contributions env kv arch t (initState w) (reposByTarget t)) := by
  obtain ⟨st, hst, hurls⟩ := fetch_ok_probeAll env w kv arch t urls h
  obtain ⟨h1, h2⟩ := probeAll_contributions env kv arch t _ _ st hst
  refine ⟨by decide, by decide, ?_, h2⟩
  rw [← hurls, h1]
  simp [initState]

/-- C9 (witness): in the end-to-end scenario the two URLs are the contribution of `2.0`,
and `latest` contributes nothing. -/
theorem fetch_urls_in_probe_order_witness :
    contributions (fixtureEnv (mirrorsAnswer "http://mirror.example/repo\n") fixtureRows)
        fixtureKernel "x86_64" TargetTypeAmazonLinux2 (initState ())
        (reposByTarget TargetTypeAmazonLinux2) = [fixtureAfterFirst.urls, []] ∧
      fixtureAfterFirst.urls =
        (contributions (fixtureEnv (mirrorsAnswer "http://mirror.example/repo\n") fixtureRows)
          fixtureKernel "x86_64" TargetTypeAmazonLinux2 (initState ())
          (reposByTarget TargetTypeAmazonLinux2)).flatten :=
  ⟨by decide,
   (fetch_urls_in_probe_order (fixtureEnv (mirrorsAnswer "http://mirror.example/repo\n")
      fixtureRows) () fixtureKernel "x86_64" TargetTypeAmazonLinux2 fixtureAfterFirst.urls
      (by decide)).2.2.1⟩

/-! ## Where the resolved URLs come from -/

/-- A completed iteration either skips a visited index and leaves `urls` as it was, or
opens an index and appends, for every row the query returns, the URL under its base. -/
theorem probe_none_cases {σ : Type} (env : Env σ) (kv : KernelRelease) (arch t : String)
    (st st1 : LoopState σ) (v : String) (h : probe env kv arch t st v = (none, st1)) :
    ∃ (base : String) (hrefs : List String),
      ((SkipsIndex env arch t st v base ∧ hrefs = []) ∨
        ∃ rows, OpensIndex env arch t st v base rows ∧
          queryPackages env rows kv arch = .ok hrefs) ∧
      st1.urls = st.urls ++ hrefs.map (fun href => base ++ "/" ++ href) := by
  have ho := probe_outcome env kv arch t st v
  rw [h] at ho
  generalize hr : (none, st1) = r at ho
  cases ho with
  | unsupported _ => simp at hr
  | mirrorError base e w1 _ _ => simp at hr
  | notFound base body w1 _ _ _ => simp at hr
  | skipped base body u w1 hb hm hline hu hvis =>
    simp only [Prod.mk.injEq, true_and] at hr
    subst hr
    subst hu
    exact ⟨base, [], Or.inl ⟨⟨hb, body, w1, hm, hline, hvis⟩, rfl⟩, by simp⟩
  | indexError base body u e w1 w2 _ _ _ _ hvis _ => simp at hr
  | unzipError base body u blob e w1 w2 _ _ _ _ hvis _ _ => simp at hr
  | openError base body u blob dbBytes e w1 w2 w3 _ _ _ _ hvis _ _ _ => simp at hr
  | queryError base body u blob dbBytes e rows w1 w2 w3 _ _ _ _ hvis _ _ _ _ => simp at hr
  | queried base body u blob dbBytes rows hrefs w1 w2 w3 w4 r hb hm hline hu hvis hi hz ho hq _ =>
    simp only [Prod.mk.injEq] at hr
    obtain ⟨_, hst⟩ := hr
    subst hst
    subst hu
    exact ⟨base, hrefs,
      Or.inr ⟨rows, ⟨hb, body, w1, blob, w2, dbBytes, w3, hm, hline, hvis, hi, hz, ho⟩, hq⟩, rfl⟩

theorem probeAll_split {σ : Type} (env : Env σ) (kv : KernelRelease) (arch t : String)
    (pre post : List String) (st st2 : LoopState σ)
    (h : probeAll env kv arch t st (pre ++ post) = (none, st2)) :
    probeAll env kv arch t st pre = (none, (probeAll env kv arch t st pre).2) ∧
      probeAll env kv arch t (probeAll env kv arch t st pre).2 post = (none, st2) := by
  rw [probeAll_append] at h
  rcases hr : probeAll env kv arch t st pre with ⟨_ | e, st1⟩
  · rw [hr] at h
    exact ⟨rfl, h⟩
  · rw [hr] at h
    simp at h

theorem probeAll_snoc {σ : Type} (env : Env σ) (kv : KernelRelease) (arch t : String)
    (pre : List String) (v : String) (st : LoopState σ)
    (hpre : probeAll env kv arch t st pre = (none, (probeAll env kv arch t st pre).2)) :
    (probeAll env kv arch t st (pre ++ [v])).2 =
      (probe env kv arch t (probeAll env kv arch t st pre).2 v).2 := by
  rw [probeAll_append, hpre]
  simp only [probeAll]
  rcases probe env kv arch t (probeAll env kv arch t st pre).2 v with ⟨_ | e, st1⟩ <;> rfl

theorem probeAll_opened {σ : Type} (env : Env σ) (kv : KernelRelease) (arch t : String)
    (gens : List String) (st st2 : LoopState σ)
    (h : probeAll env kv arch t st gens = (none, st2)) :
    ∀ u ∈ st2.urls, u ∈ st.urls ∨
      ∃ (pre : List String) (v : String) (post : List String) (base : String)
          (rows : List PackageRecord) (hrefs : List String) (href : String),
        gens = pre ++ v :: post ∧
        OpensIndex env arch t (probeAll env kv arch t st pre).2 v base rows ∧
        queryPackages env rows kv arch = .ok hrefs ∧ href ∈ hrefs ∧
        u = base ++ "/" ++ href := by
  induction gens generalizing st with
  | nil =>
    simp only [probeAll, Prod.mk.injEq, true_and] at h
    subst h
    exact fun u hu => Or.inl hu
  | cons v vs ih =>
    obtain ⟨hp, hrest⟩ := probeAll_cons_none env kv arch t st st2 v vs h
    obtain ⟨base, hrefs, hcase, hurls⟩ := probe_none_cases env kv arch t st _ v hp
    intro u hu
    rcases ih _ hrest u hu with h1 | ⟨pre, v1, post, base1, rows1, hrefs1, href1, hg, hopen, rest⟩
    · rw [hurls, List.mem_append] at h1
      rcases h1 with h1 | h1
      · exact Or.inl h1
      · right
        obtain ⟨href, hhref, rfl⟩ := List.mem_map.mp h1
        rcases hcase with ⟨_, hnil⟩ | ⟨rows, hopen, hquery⟩
        · rw [hnil] at hhref
          simp at hhref
        · exact ⟨[], v, vs, base, rows, hrefs, href, rfl, hopen, hquery, hhref, rfl⟩
    · right
      refine ⟨v :: pre, v1, post, base1, rows1, hrefs1, href1, by rw [hg]; rfl, ?_, rest⟩
      have hstate : (probeAll env kv arch t st (v :: pre)).2 =
          (probeAll env kv arch t (probe env kv arch t st v).2 pre).2 := by
        conv_lhs => rw [probeAll, hp]
      rw [hstate]
      exact hopen

theorem baseURLFor_eq_some (t v arch base : String) (h : baseURLFor t v arch = some base) :
    (t = "amazonlinux" ∧ base = "http://repo.us-east-1.amazonaws.com/" ++ v) ∨
    (t = "amazonlinux2" ∧
      base = "http://amazonlinux.us-east-1.amazonaws.com/2/core/" ++ v ++ "/" ++ arch) := by
  unfold baseURLFor at h
  by_cases h1 : t = TargetTypeAmazonLinux
  · rw [if_pos h1] at h
    exact Or.inl ⟨h1, (Option.some.inj h).symm⟩
  · rw [if_neg h1] at h
    by_cases h2 : t = TargetTypeAmazonLinux2
    · rw [if_pos h2] at h
      exact Or.inr ⟨h2, (Option.some.inj h).symm⟩
    · rw [if_neg h2] at h
      simp at h

/-- C2 (as stated, refuted): in the end-to-end scenario the mirror endpoint returns
`http://mirror.example/repo`, and neither resolved URL starts with
`http://mirror.example/repo/`. -/
theorem fetch_urls_not_under_mirror :
    (fetchAmazonLinuxPackagesURLs (fixtureEnv (mirrorsAnswer "http://mirror.example/repo\n")
        fixtureRows) () fixtureKernel "x86_64" TargetTypeAmazonLinux2).result =
      .ok ["http://amazonlinux.us-east-1.amazonaws.com/2/core/2.0/x86_64/Packages/kernel-5.10.0-1.el2.x86_64.rpm",
           "http://amazonlinux.us-east-1.amazonaws.com/2/core/2.0/x86_64/Packages/kernel-devel-5.10.0-1.el2.x86_64.rpm"] ∧
    ∀ u ∈ ["http://amazonlinux.us-east-1.amazonaws.com/2/core/2.0/x86_64/Packages/kernel-5.10.0-1.el2.x86_64.rpm",
           "http://amazonlinux.us-east-1.amazonaws.com/2/core/2.0/x86_64/Packages/kernel-devel-5.10.0-1.el2.x86_64.rpm"],
      "http://mirror.example/repo/".data.isPrefixOf u.data = false := by
  decide

/-- C2 (amended): in a successful call, for every generation `v` of the table, at whatever
position: the base URL `base` of `v` is the fixed address of the target followed by the
generation and, for `amazonlinux2`, the architecture (not the first line of the mirror
list); the iteration for `v`, run from the state the earlier generations left, either
finds its index visited and has no rows, or opens its own index and has the rows `hrefs`
of the query on it; it appends exactly the URLs `base/href` for these rows, in order; and
the returned list is what the earlier generations left, then these URLs, then what the
later generations contribute. -/
theorem fetch_urls_under_generation_base {σ : Type} (env : Env σ) (w : σ) (kv : KernelRelease)
    (arch t : String) (urls pre : List String) (v : String) (post : List String)
    (h : (fetchAmazonLinuxPackagesURLs env w kv arch t).result = .ok urls)
    (hgens : reposByTarget t = pre ++ v :: post) :
    ∃ (base : String) (hrefs : List String),
      ((t = "amazonlinux" ∧ base = "http://repo.us-east-1.amazonaws.com/" ++ v) ∨
       (t = "amazonlinux2" ∧
        base = "http://amazonlinux.us-east-1.amazonaws.com/2/core/" ++ v ++ "/" ++ arch)) ∧
      ((SkipsIndex env arch t (stateAfter env w kv arch t pre) v base ∧ hrefs = []) ∨
        ∃ rows, OpensIndex env arch t (stateAfter env w kv arch t pre) v base rows ∧
          queryPackages env rows kv arch = .ok hrefs) ∧
      (stateAfter env w kv arch t (pre ++ [v])).urls =
        (stateAfter env w kv arch t pre).urls ++ hrefs.map (fun href => base ++ "/" ++ href) ∧
      urls = (stateAfter env w kv arch t pre).urls ++
        hrefs.map (fun href => base ++ "/" ++ href) ++
        (contributions env kv arch t (stateAfter env w kv arch t (pre ++ [v])) post).flatten := by
  obtain ⟨st, hst, hurls⟩ := fetch_ok_probeAll env w kv arch t urls h
  rw [hgens] at hst
  obtain ⟨hpre, hrest⟩ := probeAll_split env kv arch t pre (v :: post) _ st hst
  obtain ⟨hp, hpost⟩ := probeAll_cons_none env kv arch t _ st v post hrest
  obtain ⟨base, hrefs, hcase, happ⟩ := probe_none_cases env kv arch t _ _ v hp
  have hsnoc := probeAll_snoc env kv arch t pre v (initState w) hpre
  have hbase : baseURLFor t v arch = some base := by
    rcases hcase with ⟨hs, _⟩ | ⟨rows, ho, _⟩
    · exact hs.1
    · exact ho.1
  refine ⟨base, hrefs, baseURLFor_eq_some t v arch base hbase, hcase, ?_, ?_⟩
  · unfold stateAfter
    rw [hsnoc]
    exact happ
  · unfold stateAfter
    rw [hsnoc, ← hurls, (probeAll_contributions env kv arch t post _ st hpost).1, happ]

/-- C2 (witness): the generation `2.0` of the end-to-end scenario, at the head of the table,
opens the index and contributes both URLs; `latest` follows and contributes nothing. -/
theorem fetch_urls_under_generation_base_witness :
    ∃ (base : String) (hrefs : List String),
      ((TargetTypeAmazonLinux2 = "amazonlinux" ∧
          base = "http://repo.us-east-1.amazonaws.com/" ++ "2.0") ∨
       (TargetTypeAmazonLinux2 = "amazonlinux2" ∧
        base = "http://amazonlinux.us-east-1.amazonaws.com/2/core/" ++ "2.0" ++ "/" ++ "x86_64")) ∧
      ((SkipsIndex (fixtureEnv (mirrorsAnswer "http://mirror.example/repo\n") fixtureRows)
          "x86_64" TargetTypeAmazonLinux2
          (stateAfter (fixtureEnv (mirrorsAnswer "http://mirror.example/repo\n") fixtureRows)
            () fixtureKernel "x86_64" TargetTypeAmazonLinux2 []) "2.0" base ∧ hrefs = []) ∨
        ∃ rows, OpensIndex (fixtureEnv (mirrorsAnswer "http://mirror.example/repo\n") fixtureRows)
            "x86_64" TargetTypeAmazonLinux2
            (stateAfter (fixtureEnv (mirrorsAnswer "http://mirror.example/repo\n") fixtureRows)
              () fixtureKernel "x86_64" TargetTypeAmazonLinux2 []) "2.0" base rows ∧
          queryPackages (fixtureEnv (mirrorsAnswer "http://mirror.example/repo\n") fixtureRows)
            rows fixtureKernel "x86_64" = .ok hrefs) ∧
      (stateAfter (fixtureEnv (mirrorsAnswer "http://mirror.example/repo\n") fixtureRows)
          () fixtureKernel "x86_64" TargetTypeAmazonLinux2 ([] ++ ["2.0"])).urls =
        (stateAfter (fixtureEnv (mirrorsAnswer "http://mirror.example/repo\n") fixtureRows)
          () fixtureKernel "x86_64" TargetTypeAmazonLinux2 []).urls ++
          hrefs.map (fun href => base ++ "/" ++ href) ∧
      fixtureAfterFirst.urls =
        (stateAfter (fixtureEnv (mirrorsAnswer "http://mirror.example/repo\n") fixtureRows)
          () fixtureKernel "x86_64" TargetTypeAmazonLinux2 []).urls ++
        hrefs.map (fun href => base ++ "/" ++ href) ++
        (contributions (fixtureEnv (mirrorsAnswer "http://mirror.example/repo\n") fixtureRows)
          fixtureKernel "x86_64" TargetTypeAmazonLinux2
          (stateAfter (fixtureEnv (mirrorsAnswer "http://mirror.example/repo\n") fixtureRows)
            () fixtureKernel "x86_64" TargetTypeAmazonLinux2 ([] ++ ["2.0"])) ["latest"]).flatten :=
  fetch_urls_under_generation_base (fixtureEnv (mirrorsAnswer "http://mirror.example/repo\n")
    fixtureRows) () fixtureKernel "x86_64" TargetTypeAmazonLinux2 fixtureAfterFirst.urls
    [] "2.0" ["latest"] (by decide) (by decide)

/-! ## The rows the query selects -/

theorem sqlLike_percent (s : List Char) : sqlLike ['%'] s = true := by
  simp only [sqlLike, if_true, List.any_eq_true]
  exact ⟨[], (List.mem_tails _ _).mpr List.nil_suffix, rfl⟩

theorem sqlLike_literal_percent (lit : List Char)
    (hlit : ∀ c ∈ lit, c ≠ '%' ∧ c ≠ '_') (s : List Char) :
    sqlLike (lit ++ ['%']) s = true ↔ lit.map sqliteFold <+: s.map sqliteFold := by
  induction lit generalizing s with
  | nil => simp [sqlLike_percent]
  | cons c lit ih =>
    have hc := hlit c (List.mem_cons_self _ _)
    have hrest : ∀ c1 ∈ lit, c1 ≠ '%' ∧ c1 ≠ '_' :=
      fun c1 h1 => hlit c1 (List.mem_cons_of_mem _ h1)
    cases s with
    | nil => simp [sqlLike, hc.1]
    | cons d s1 =>
      simp only [List.cons_append, sqlLike, if_neg hc.1, hc.2, false_or, List.map_cons,
        Bool.and_eq_true, decide_eq_true_eq, List.cons_prefix_cons]
      exact and_congr_right fun _ => ih hrest s1

theorem sqlLike_percent_literal_percent (lit : List Char)
    (hlit : ∀ c ∈ lit, c ≠ '%' ∧ c ≠ '_') (s : List Char) :
    sqlLike ('%' :: (lit ++ ['%'])) s = true ↔ lit.map sqliteFold <:+: s.map sqliteFold := by
  simp only [sqlLike, if_true, List.any_eq_true, List.mem_tails,
    sqlLike_literal_percent lit hlit]
  constructor
  · rintro ⟨x, hx, hpre⟩
    exact List.infix_iff_prefix_suffix.mpr ⟨_, hpre, hx.map sqliteFold⟩
  · rintro ⟨a, b, hab⟩
    refine ⟨s.drop a.length, List.drop_suffix _ _, ?_⟩
    rw [List.map_drop, ← hab, List.append_assoc, List.drop_left]
    exact List.prefix_append _ _

/-- The `WHERE` clause in words. -/
theorem rowSelected_iff (version release : String) (r : PackageRecord) :
    rowSelected version release r = true ↔
      (foldASCII "kernel".data <+: foldASCII (likeText r.name) ∧
       ¬ foldASCII "kernel-livepatch".data <+: foldASCII (likeText r.name) ∧
       ¬ foldASCII "doc".data <:+: foldASCII (likeText r.name) ∧
       ¬ foldASCII "tools".data <:+: foldASCII (likeText r.name) ∧
       ¬ foldASCII "headers".data <:+: foldASCII (likeText r.name) ∧
       r.version = version ∧ r.release = release) := by
  have h1 : sqlLike "kernel%".data (likeText r.name) = true ↔
      "kernel".data.map sqliteFold <+: (likeText r.name).map sqliteFold :=
    sqlLike_literal_percent "kernel".data (by decide) (likeText r.name)
  have h2 : sqlLike "kernel-livepatch%".data (likeText r.name) = true ↔
      "kernel-livepatch".data.map sqliteFold <+: (likeText r.name).map sqliteFold :=
    sqlLike_literal_percent "kernel-livepatch".data (by decide) (likeText r.name)
  have h3 : sqlLike "%doc%".data (likeText r.name) = true ↔
      "doc".data.map sqliteFold <:+: (likeText r.name).map sqliteFold :=
    sqlLike_percent_literal_percent "doc".data (by decide) (likeText r.name)
  have h4 : sqlLike "%tools%".data (likeText r.name) = true ↔
      "tools".data.map sqliteFold <:+: (likeText r.name).map sqliteFold :=
    sqlLike_percent_literal_percent "tools".data (by decide) (likeText r.name)
  have h5 : sqlLike "%headers%".data (likeText r.name) = true ↔
      "headers".data.map sqliteFold <:+: (likeText r.name).map sqliteFold :=
    sqlLike_percent_literal_percent "headers".data (by decide) (likeText r.name)
  unfold rowSelected foldASCII
  simp only [Bool.and_eq_true, Bool.not_eq_true', beq_iff_eq, ← Bool.not_eq_true, h1, h2,
    h3, h4, h5, and_assoc]

theorem queryPackages_plain {σ : Type} (env : Env σ) (rows : List PackageRecord)
    (kv : KernelRelease) (arch : String) (hplain : plainValues kv arch = true) :
    queryPackages env rows kv arch =
      .ok ((rows.filter (rowSelected kv.Fullversion (derivedRelease kv arch))).map
        (fun r => r.location_href)) := by
  unfold plainValues at hplain
  simp only [Bool.and_eq_true, Bool.not_eq_true', decide_eq_true_eq] at hplain
  obtain ⟨⟨⟨⟨hq1, hq2⟩, hn1⟩, hn2⟩, hlen⟩ := hplain
  unfold queryPackages
  have hlen1 : ¬ plainStatementBytes <
      (queryText kv.Fullversion (derivedRelease kv arch)).utf8ByteSize := Nat.not_lt.mpr hlen
  simp [hq1, hq2, hn1, hn2, hlen1]

/-- C6 (as stated, refuted): the query returns the row named `Kernel`, whose name does not
start with `kernel`. -/
theorem query_returns_capital_name :
    queryPackages (fixtureEnv (mirrorsAnswer "http://mirror.example/repo\n") capitalRows)
        capitalRows fixtureKernel "x86_64" =
      .ok ["Packages/Kernel-5.10.0-1.el2.x86_64.rpm"] ∧
    ∀ r ∈ capitalRows, "kernel".data.isPrefixOf r.name.data = false := by
  decide

/-- C6 (amended): when the kernel version and the derived release contain no single quote
and no NUL character and the statement text has at most a million bytes, the query returns,
in scan order, the `location_href` of exactly the rows whose name, read up to its first NUL
character and compared without regard to the case of ASCII letters, starts with `kernel`,
does not start with `kernel-livepatch` and contains none of `doc`, `tools`, `headers`, and
whose version and release equal the kernel version and the derived release exactly. -/
theorem query_selects_kernel_rows {σ : Type} (env : Env σ) (rows : List PackageRecord)
    (kv : KernelRelease) (arch : String)
    (hq : hasQuote kv.Fullversion = false ∧ hasQuote (derivedRelease kv arch) = false)
    (hn : hasNul kv.Fullversion = false ∧ hasNul (derivedRelease kv arch) = false)
    (hlen : (queryText kv.Fullversion (derivedRelease kv arch)).utf8ByteSize ≤ 1000000) :
    queryPackages env rows kv arch =
      .ok ((rows.filter (fun r => decide
        (foldASCII "kernel".data <+: foldASCII (likeText r.name) ∧
         ¬ foldASCII "kernel-livepatch".data <+: foldASCII (likeText r.name) ∧
         ¬ foldASCII "doc".data <:+: foldASCII (likeText r.name) ∧
         ¬ foldASCII "tools".data <:+: foldASCII (likeText r.name) ∧
         ¬ foldASCII "headers".data <:+: foldASCII (likeText r.name) ∧
         r.version = kv.Fullversion ∧ r.release = derivedRelease kv arch))).map
        (fun r => r.location_href)) := by
  have hplain : plainValues kv arch = true := by
    unfold plainValues
    simp only [hq.1, hq.2, hn.1, hn.2, Bool.not_false, Bool.and_self, Bool.true_and,
      decide_eq_true_eq]
    exact hlen
  rw [queryPackages_plain env rows kv arch hplain]
  congr 2
  apply List.filter_congr
  intro r _
  rw [Bool.eq_iff_iff, decide_eq_true_eq]
  exact rowSelected_iff kv.Fullversion (derivedRelease kv arch) r

/-- C6 (witness): on the index of the end-to-end scenario both rows are returned. -/
theorem query_selects_kernel_rows_witness :
    queryPackages (fixtureEnv (mirrorsAnswer "http://mirror.example/repo\n") fixtureRows)
        fixtureRows fixtureKernel "x86_64" =
      .ok ((fixtureRows.filter (fun r => decide
        (foldASCII "kernel".data <+: foldASCII (likeText r.name) ∧
         ¬ foldASCII "kernel-livepatch".data <+: foldASCII (likeText r.name) ∧
         ¬ foldASCII "doc".data <:+: foldASCII (likeText r.name) ∧
         ¬ foldASCII "tools".data <:+: foldASCII (likeText r.name) ∧
         ¬ foldASCII "headers".data <:+: foldASCII (likeText r.name) ∧
         r.version = fixtureKernel.Fullversion ∧
         r.release = derivedRelease fixtureKernel "x86_64"))).map
        (fun r => r.location_href)) :=
  query_selects_kernel_rows (fixtureEnv (mirrorsAnswer "http://mirror.example/repo\n")
    fixtureRows) fixtureRows fixtureKernel "x86_64" (by decide) (by decide) (by decide)

/-- A value with a NUL character and no single quote makes the statement fail, whatever
the rows. -/
theorem queryPackages_nul_fails (rows : List PackageRecord) :
    queryPackages (fixtureEnv (mirrorsAnswer "http://mirror.example/repo\n") rows)
      rows nulKernel "x86_64" = .error "unrecognized token" := by
  have h1 : (hasQuote nulKernel.Fullversion || hasQuote (derivedRelease nulKernel "x86_64") ||
      decide (plainStatementBytes < (queryText nulKernel.Fullversion
        (derivedRelease nulKernel "x86_64")).utf8ByteSize)) = false := by
    decide
  have h2 : (hasNul nulKernel.Fullversion || hasNul (derivedRelease nulKernel "x86_64")) =
      true := by
    decide
  unfold queryPackages
  simp only [h1, h2, if_true, Bool.false_eq_true, if_false]
  rfl

/-! ## What the package count check guarantees -/

/-- C7 (as stated, refuted): on an index whose matching rows are `kernel` and
`kernel-debuginfo` the call resolves two URLs, `script` passes the count check and renders,
and no row is named `kernel-devel`. -/
theorem script_accepts_debuginfo :
    (fetchAmazonLinuxPackagesURLs (fixtureEnv (mirrorsAnswer "http://mirror.example/repo\n")
        debuginfoRows) () fixtureKernel "x86_64" TargetTypeAmazonLinux2).result =
      .ok ["http://amazonlinux.us-east-1.amazonaws.com/2/core/2.0/x86_64/Packages/kernel-5.10.0-1.el2.x86_64.rpm",
           "http://amazonlinux.us-east-1.amazonaws.com/2/core/2.0/x86_64/Packages/kernel-debuginfo-5.10.0-1.el2.x86_64.rpm"] ∧
    (script (fixtureEnv (mirrorsAnswer "http://mirror.example/repo\n") debuginfoRows) ()
        fixtureConfig TargetTypeAmazonLinux2).err = none ∧
    (script (fixtureEnv (mirrorsAnswer "http://mirror.example/repo\n") debuginfoRows) ()
        fixtureConfig TargetTypeAmazonLinux2).text =
      "\n\necho http://amazonlinux.us-east-1.amazonaws.com/2/core/2.0/x86_64/Packages/kernel-5.10.0-1.el2.x86_64.rpm\n\necho http://amazonlinux.us-east-1.amazonaws.com/2/core/2.0/x86_64/Packages/kernel-debuginfo-5.10.0-1.el2.x86_64.rpm\n\n" ∧
    ∀ r ∈ debuginfoRows, r.name ≠ "kernel-devel" := by
  decide

/-- C7 (amended): when the call resolves exactly 2 URLs, `script` passes the count check
and goes on to `getResolvingURLs`; and when moreover the kernel version and the derived
release keep the statement the intended one, each of the two URLs is `base/location_href`
for a row that the `WHERE` clause selects in the index that a generation `v` of the table
downloaded and opened in this very call, from the state the generations before `v` left,
`base` being the base URL of `v`. The names of the two rows are not constrained further. -/
theorem count_check_urls_are_selected_rows {σ : Type} (env : Env σ) (w : σ) (c : Config)
    (t : String) (urls : List String)
    (hfetch : (fetchAmazonLinuxPackagesURLs env w (env.fromString c.Build.KernelRelease)
      c.Build.Architecture t).result = .ok urls)
    (hlen : urls.length = 2)
    (hplain : plainValues (env.fromString c.Build.KernelRelease) c.Build.Architecture = true) :
    script env w c t =
      (match env.getResolvingURLs (fetchAmazonLinuxPackagesURLs env w
          (env.fromString c.Build.KernelRelease) c.Build.Architecture t).world urls with
        | (.error e, w1) => { text := "", err := some e, world := w1 }
        | (.ok resolved, w1) => { text := renderTemplate resolved, err := none, world := w1 }) ∧
    ∀ u ∈ urls, ∃ (pre : List String) (v : String) (post : List String) (base : String)
        (rows : List PackageRecord) (r : PackageRecord),
      reposByTarget t = pre ++ v :: post ∧
      OpensIndex env c.Build.Architecture t
        (stateAfter env w (env.fromString c.Build.KernelRelease) c.Build.Architecture t pre)
        v base rows ∧
      r ∈ rows ∧
      rowSelected (env.fromString c.Build.KernelRelease).Fullversion
        (derivedRelease (env.fromString c.Build.KernelRelease) c.Build.Architecture) r = true ∧
      u = base ++ "/" ++ r.location_href := by
  constructor
  · unfold script
    simp only [hfetch, hlen, ne_eq, not_true_eq_false, if_false]
  · obtain ⟨st, hst, hurls⟩ := fetch_ok_probeAll env w _ _ t urls hfetch
    intro u hu
    rw [← hurls] at hu
    rcases probeAll_opened env _ _ t _ _ st hst u hu with h1 |
      ⟨pre, v, post, base, rows, hrefs, href, hg, hopen, hq, hhref, hu1⟩
    · simp [initState] at h1
    · rw [queryPackages_plain env rows _ _ hplain] at hq
      simp only [Except.ok.injEq] at hq
      rw [← hq] at hhref
      obtain ⟨r, hr1, hr2⟩ := List.mem_map.mp hhref
      rw [List.mem_filter] at hr1
      exact ⟨pre, v, post, base, rows, r, hg, hopen, hr1.1, hr1.2, by rw [hu1, hr2]⟩

/-- C7 (witness): the first URL of the end-to-end scenario, which resolves two URLs. -/
theorem count_check_urls_are_selected_rows_witness :
    ∃ (pre : List String) (v : String) (post : List String) (base : String)
        (rows : List PackageRecord) (r : PackageRecord),
      reposByTarget TargetTypeAmazonLinux2 = pre ++ v :: post ∧
      OpensIndex (fixtureEnv (mirrorsAnswer "http://mirror.example/repo\n") fixtureRows)
        fixtureConfig.Build.Architecture TargetTypeAmazonLinux2
        (stateAfter (fixtureEnv (mirrorsAnswer "http://mirror.example/repo\n") fixtureRows) ()
          ((fixtureEnv (mirrorsAnswer "http://mirror.example/repo\n") fixtureRows).fromString
            fixtureConfig.Build.KernelRelease)
          fixtureConfig.Build.Architecture TargetTypeAmazonLinux2 pre)
        v base rows ∧
      r ∈ rows ∧
      rowSelected ((fixtureEnv (mirrorsAnswer "http://mirror.example/repo\n")
          fixtureRows).fromString fixtureConfig.Build.KernelRelease).Fullversion
        (derivedRelease ((fixtureEnv (mirrorsAnswer "http://mirror.example/repo\n")
          fixtureRows).fromString fixtureConfig.Build.KernelRelease)
          fixtureConfig.Build.Architecture) r = true ∧
      "http://amazonlinux.us-east-1.amazonaws.com/2/core/2.0/x86_64/Packages/kernel-5.10.0-1.el2.x86_64.rpm" =
        base ++ "/" ++ r.location_href :=
  (count_check_urls_are_selected_rows
    (fixtureEnv (mirrorsAnswer "http://mirror.example/repo\n") fixtureRows) () fixtureConfig
    TargetTypeAmazonLinux2 fixtureAfterFirst.urls (by decide) (by decide) (by decide)).2
    "http://amazonlinux.us-east-1.amazonaws.com/2/core/2.0/x86_64/Packages/kernel-5.10.0-1.el2.x86_64.rpm"
    (by decide)

end Driverkit
